import Mathlib

/-!
Shallow embedding of the resumable chunked upload core
(`src/backend/server.js` of sk230144/zip_chunk_uploader), together with
theorems settling the specification claims about it.

Modelling conventions:
* MongoDB collections are lists of records; `findOne` is `List.find?`,
  `updateOne` updates the first matching record (the unique indexes of
  `database.js` guarantee at most one match), `deleteMany` is a filter.
* The upload directory is an association list from file name (= uploadId)
  to the file's bytes; a positional write (`fileHandle.write` at an offset)
  zero-fills the gap when the offset is past the current end, as the
  `r+`/`w` open modes of the source do.
* JavaScript falsiness of request fields: a missing field is `none`, an
  empty string and the number 0 are falsy, everything else truthy.
* Timestamps are integer milliseconds.
* Disk / digest failures are injected through an `IOFlags` record, which
  models the `try`/`catch` error paths of the source.
-/

/-- `CHUNK_SIZE = 5 * 1024 * 1024` (server.js line 16). -/
def CHUNK_SIZE : Int := 5 * 1024 * 1024

/-- Session status values stored in the `uploads` collection. -/
inductive UStatus where
  | uploading
  | processing
  | completed
  | failed
deriving DecidableEq, Repr

/-- Chunk record status values stored in the `chunks` collection. -/
inductive CStatus where
  | pending
  | received
deriving DecidableEq, Repr

/-- One document of the `uploads` collection (server.js lines 59-68). -/
structure UploadDoc where
  id : String
  filename : String
  total_size : Int
  total_chunks : Int
  status : UStatus
  final_hash : Option String
  created_at : Int
  updated_at : Int
deriving DecidableEq, Repr

/-- One document of the `chunks` collection (server.js lines 72-77). -/
structure ChunkDoc where
  upload_id : String
  chunk_index : Int
  status : CStatus
  received_at : Option Int
deriving DecidableEq, Repr

/-- The durable state of the server: the two MongoDB collections, the
upload directory, and the temp (scratch) directory with per-file mtimes. -/
structure ServerState where
  uploads : List UploadDoc
  chunks : List ChunkDoc
  files : List (String × List Nat)
  temps : List (String × Int)
deriving DecidableEq, Repr

/-- Injected I/O outcomes for one request: whether the positional file
write succeeds (server.js line 138) and whether the digest stream
succeeds (server.js line 195). -/
structure IOFlags where
  writeOk : Bool
  hashOk : Bool
deriving DecidableEq, Repr

/-- Look a file up in the upload directory. -/
def lookupFile (fs : List (String × List Nat)) (name : String) : Option (List Nat) :=
  (fs.find? (fun p => p.1 == name)).map (fun p => p.2)

/-- Create or overwrite-in-place the entry for `name`. -/
def setFile (fs : List (String × List Nat)) (name : String) (v : List Nat) :
    List (String × List Nat) :=
  match fs with
  | [] => [(name, v)]
  | (n, w) :: rest =>
      if n = name then (n, v) :: rest else (n, w) :: setFile rest name v

/-- `fs.unlink` of a target file, ignoring not-found. -/
def removeFile (fs : List (String × List Nat)) (name : String) :
    List (String × List Nat) :=
  fs.filter (fun p => !(p.1 == name))

/-- Positional write of `data` at byte offset `off`: bytes before `off`
are kept (zero-filled when the file is shorter than `off`), `data`
overlays `[off, off + |data|)`, and any bytes after that are kept.
This is the semantics of `fileHandle.write(chunkData, 0, len, offset)`
on a file opened `r+` (or freshly created by `w`), server.js 134-138. -/
def writeAt (file : List Nat) (off : Nat) (data : List Nat) : List Nat :=
  file.take off ++ List.replicate (off - file.length) 0 ++ data
    ++ file.drop (off + data.length)

/-- `Math.ceil(a / b)` for integer arguments and positive `b`
(server.js line 38); Lean's `Int` division floors, so the ceiling is
`-((-a) / b)`. -/
def ceilDiv (a b : Int) : Int := -((-a) / b)

/-- SHA-256 hex digest, abstracted: the claims under verification never
inspect the digest value, only whether and when one is written, so the
streaming SHA-256 of `calculateFileHash` (server.js 223-232) is modelled
as an injective encoding of the byte list. -/
def sha256Hex (bytes : List Nat) : String := toString bytes

/-- `updateOne` on the `chunks` collection with filter
`{upload_id, chunk_index}` and `$set {status: RECEIVED, received_at}`
(server.js 145-148): updates the first matching record, or nothing when
no record matches (there is no upsert). -/
def updateChunkFirst (cs : List ChunkDoc) (uid : String) (idx : Int) (now : Int) :
    List ChunkDoc :=
  match cs with
  | [] => []
  | c :: rest =>
      if c.upload_id == uid && c.chunk_index == idx then
        { c with status := .received, received_at := some now } :: rest
      else
        c :: updateChunkFirst rest uid idx now

/-- `updateOne` on the `uploads` collection with filter `{id}`:
updates the first matching session record. -/
def updateUploadFirst (us : List UploadDoc) (uid : String)
    (f : UploadDoc → UploadDoc) : List UploadDoc :=
  match us with
  | [] => []
  | u :: rest =>
      if u.id == uid then f u :: rest else u :: updateUploadFirst rest uid f

/-- Number of chunk records of `uid` with status RECEIVED. -/
def countReceived (cs : List ChunkDoc) (uid : String) : Nat :=
  ((cs.filter (fun c => c.upload_id == uid)).filter
    (fun c => c.status == .received)).length

/-- Request body of `POST /api/upload/init` (server.js line 32); `none`
models an absent field. -/
structure InitReq where
  filename : Option String
  fileSize : Option Int
  uploadId : Option String
deriving DecidableEq, Repr

/-- Response of `POST /api/upload/init`. -/
inductive InitResp where
  | badRequest
  | ok (uploadId : String) (uploadedChunks : List Int) (status : UStatus)
deriving DecidableEq, Repr

/-- `POST /api/upload/init` (server.js 30-93).  The guard
`!filename || !fileSize || !uploadId` rejects absent fields, the empty
string and the number 0 — and nothing else.  On an existing id it
returns the session's status and the RECEIVED chunk indices without
touching any state; otherwise it inserts the session and
`Math.ceil(fileSize / CHUNK_SIZE)` PENDING chunk records. -/
def initUpload (st : ServerState) (req : InitReq) (now : Int) :
    ServerState × InitResp :=
  match req.filename, req.fileSize, req.uploadId with
  | some fn, some sz, some uid =>
      if fn = "" ∨ sz = 0 ∨ uid = "" then (st, .badRequest)
      else
        let totalChunks := ceilDiv sz CHUNK_SIZE
        match st.uploads.find? (fun u => u.id == uid) with
        | some existing =>
            (st, .ok uid
              (((st.chunks.filter (fun c => c.upload_id == uid)).filter
                  (fun c => c.status == .received)).map (fun c => c.chunk_index))
              existing.status)
        | none =>
            let session : UploadDoc :=
              { id := uid, filename := fn, total_size := sz,
                total_chunks := totalChunks, status := .uploading,
                final_hash := none, created_at := now, updated_at := now }
            let newChunks := (List.range totalChunks.toNat).map
              (fun i => ({ upload_id := uid, chunk_index := Int.ofNat i,
                           status := .pending, received_at := none } : ChunkDoc))
            ({ st with uploads := st.uploads ++ [session],
                       chunks := st.chunks ++ newChunks },
             .ok uid [] .uploading)
  | _, _, _ => (st, .badRequest)

/-- Multipart fields of `POST /api/upload/chunk` (server.js line 99) plus
the spooled payload bytes.  `chunkIndex` is checked only against
`undefined` (then `parseInt`ed), so it is modelled as an already-parsed
optional integer; `totalChunks` arrives as a form string whose only use
is the truthiness guard (its `parseInt` at line 107 is dead). -/
structure ChunkReq where
  uploadId : Option String
  chunkIndex : Option Int
  totalChunks : Option String
  payload : List Nat
deriving DecidableEq, Repr

/-- Response of `POST /api/upload/chunk`. -/
inductive ChunkResp where
  | badRequest
  | notFound
  | alreadyUploaded
  | serverError
  | ok (isComplete : Bool) (receivedChunks : Nat) (totalChunks : Nat)
deriving DecidableEq, Repr

/-- Observable effect events of one chunk request, used to state the
ordering guarantee I6: the successful positional file write, and the
`set_chunk_received` store update that follows it. -/
inductive Ev where
  | fileWrite
  | setReceived
deriving DecidableEq, Repr

/-- `finalizeUpload` (server.js 180-221), run to completion in isolation:
load the session; return unless its status is UPLOADING; set PROCESSING
(an `updateOne` filtered on `{id}` only); hash the file (failure, or a
missing file, takes the catch branch to FAILED); zip peek errors are
swallowed; finally set COMPLETED with `final_hash`. -/
def finalizeUpload (st : ServerState) (uid : String) (io : IOFlags)
    (now : Int) : ServerState :=
  match st.uploads.find? (fun u => u.id == uid) with
  | none => st
  | some u =>
      if u.status ≠ .uploading then st
      else
        let toProcessing := fun (v : UploadDoc) =>
          { v with status := UStatus.processing, updated_at := now }
        let st1 := { st with uploads := updateUploadFirst st.uploads uid toProcessing }
        match lookupFile st1.files uid, io.hashOk with
        | some f, true =>
            let toCompleted := fun (v : UploadDoc) =>
              { v with status := UStatus.completed,
                       final_hash := some (sha256Hex f), updated_at := now }
            { st1 with uploads := updateUploadFirst st1.uploads uid toCompleted }
        | _, _ =>
            let toFailed := fun (v : UploadDoc) =>
              { v with status := UStatus.failed, updated_at := now }
            { st1 with uploads := updateUploadFirst st1.uploads uid toFailed }

/-- Body of the chunk endpoint after field validation (server.js 106-168):
load the session (404 when absent — the status is never consulted); fast
path when the chunk record is already RECEIVED; positional write of the
payload at `chunkIndex * CHUNK_SIZE` (a write failure, including the
negative offset a negative index would produce, is caught and answers
500 with no record update); `updateOne` the chunk record to RECEIVED;
recount the records of this upload and finalize inline when
`received == total`.  The returned event list records the successful
write and the store update, in order. -/
def receiveChunkCore (st : ServerState) (uid : String) (idx : Int)
    (payload : List Nat) (io : IOFlags) (now : Int) :
    ServerState × ChunkResp × List Ev :=
  match st.uploads.find? (fun u => u.id == uid) with
  | none => (st, .notFound, [])
  | some _ =>
      let existing := st.chunks.find?
        (fun c => c.upload_id == uid && c.chunk_index == idx)
      let alreadyReceived : Bool :=
        match existing with
        | some c => c.status == CStatus.received
        | none => false
      if alreadyReceived then
        (st, .alreadyUploaded, [])
      else
        let offset := idx * CHUNK_SIZE
        if io.writeOk && decide (0 ≤ offset) then
          let oldFile := (lookupFile st.files uid).getD []
          let newFile := writeAt oldFile offset.toNat payload
          let st1 := { st with files := setFile st.files uid newFile }
          let st2 := { st1 with chunks := updateChunkFirst st1.chunks uid idx now }
          let allChunks := st2.chunks.filter (fun c => c.upload_id == uid)
          let totalCount := allChunks.length
          let receivedCount :=
            (allChunks.filter (fun c => c.status == .received)).length
          let isComplete := receivedCount == totalCount
          let st3 := if isComplete then finalizeUpload st2 uid io now else st2
          (st3, .ok isComplete receivedCount totalCount,
           [Ev.fileWrite, Ev.setReceived])
        else
          (st, .serverError, [])

/-- `POST /api/upload/chunk` (server.js 95-178): the guard
`!uploadId || chunkIndex === undefined || !totalChunks` (line 101)
rejects an absent `uploadId`/empty string, an absent `chunkIndex`, and an
absent or empty `totalChunks` form string; afterwards `totalChunks` is
never used again. -/
def receiveChunk (st : ServerState) (req : ChunkReq) (io : IOFlags)
    (now : Int) : ServerState × ChunkResp × List Ev :=
  match req.uploadId, req.chunkIndex, req.totalChunks with
  | some uid, some idx, some tc =>
      if uid = "" ∨ tc = "" then (st, .badRequest, [])
      else receiveChunkCore st uid idx req.payload io now
  | _, _, _ => (st, .badRequest, [])

/-- The store operations `finalizeUpload` performs on the `uploads`
collection, in source order: the `findOne` + status guard (server.js
184-188), the `updateOne` to PROCESSING whose filter is `{id}` alone
(190-193), and the `updateOne` to COMPLETED that writes `final_hash`
(204-207).  Used to analyse interleavings of concurrent finalizers. -/
inductive FOp where
  | statusGuard
  | writeProcessing
  | writeCompleted
deriving DecidableEq, Repr

/-- State shared by concurrently running `finalizeUpload` workers for one
session: the session's status, a count of writes of `final_hash`, a
count of `$set {status: COMPLETED}` operations, and each worker's
remaining operations. -/
structure RaceState where
  status : UStatus
  finalHashWrites : Nat
  completedWrites : Nat
  workers : List (List FOp)
deriving DecidableEq, Repr

/-- Execute the next store operation of worker `w`; each store operation
is individually atomic (MongoDB single-document operations), but workers
interleave freely at the `await` between them.  A worker whose guard
sees a status other than UPLOADING returns (drops its remaining
operations), exactly as server.js 186-188. -/
def raceStep (s : RaceState) (w : Nat) : RaceState :=
  match s.workers.get? w with
  | none => s
  | some [] => s
  | some (op :: rest) =>
      match op with
      | .statusGuard =>
          if s.status = .uploading then
            { s with workers := s.workers.set w rest }
          else
            { s with workers := s.workers.set w [] }
      | .writeProcessing =>
          { s with status := .processing, workers := s.workers.set w rest }
      | .writeCompleted =>
          { s with status := .completed,
                   finalHashWrites := s.finalHashWrites + 1,
                   completedWrites := s.completedWrites + 1,
                   workers := s.workers.set w rest }

/-- Run a schedule: at each step the named worker performs its next
store operation. -/
def raceRun (s : RaceState) (sched : List Nat) : RaceState :=
  sched.foldl raceStep s

/-- The operation sequence of one `finalizeUpload` worker. -/
def finalizeOps : List FOp := [.statusGuard, .writeProcessing, .writeCompleted]

/-- `n` workers all invoking `finalizeUpload` on one session whose
status is UPLOADING (all chunk records RECEIVED). -/
def raceStart (n : Nat) : RaceState :=
  { status := .uploading, finalHashWrites := 0, completedWrites := 0,
    workers := List.replicate n finalizeOps }

/-- `cleanupOldUploads` (server.js 285-320): collect the sessions with
status UPLOADING or FAILED created before the 24 h cutoff, unlink each
one's target file (ignoring not-found), `deleteMany` those session
records — the `chunks` collection is never touched — and delete temp
files whose mtime is more than 1 h old. -/
def cleanupOldUploads (st : ServerState) (now : Int) : ServerState :=
  let cutoff := now - 24 * 60 * 60 * 1000
  let isOld := fun (u : UploadDoc) =>
    (u.status == .uploading || u.status == .failed)
      && decide (u.created_at < cutoff)
  let oldOnes := st.uploads.filter isOld
  let files1 := oldOnes.foldl (fun fs u => removeFile fs u.id) st.files
  let uploads1 := st.uploads.filter (fun u => !(isOld u))
  let temps1 := st.temps.filter
    (fun t => !(decide (now - t.2 > 60 * 60 * 1000)))
  { st with uploads := uploads1, files := files1, temps := temps1 }

/-- The ordering property of spec invariant I6, over the event list of
one chunk request: every `set_chunk_received` store update is preceded
by a successful positional file write. -/
def writePrecedesMark (tr : List Ev) : Prop :=
  ∀ n, tr.get? n = some Ev.setReceived →
    ∃ m, m < n ∧ tr.get? m = some Ev.fileWrite

/-- All I/O succeeding. -/
def ioAll : IOFlags := { writeOk := true, hashOk := true }

/-- Example state: a fresh two-chunk session awaiting both chunks. -/
def exC2St : ServerState :=
  { uploads := [{ id := "u", filename := "a.zip", total_size := 10485760,
                  total_chunks := 2, status := .uploading, final_hash := none,
                  created_at := 0, updated_at := 0 }],
    chunks := [{ upload_id := "u", chunk_index := 0, status := .pending,
                 received_at := none },
               { upload_id := "u", chunk_index := 1, status := .pending,
                 received_at := none }],
    files := [], temps := [] }

/-- Example state reached by running the server from the empty state:
`init` with `fileSize = -5` (accepted, zero chunk records), then one
chunk call whose completion check `0 == 0` finalizes the session, so the
session is COMPLETED with `final_hash` set and target file `[1, 2, 3]`. -/
def exC3St : ServerState :=
  (receiveChunk
    (initUpload { uploads := [], chunks := [], files := [], temps := [] }
      { filename := some "a.zip", fileSize := some (-5), uploadId := some "u" }
      0).1
    { uploadId := some "u", chunkIndex := some 0, totalChunks := some "1",
      payload := [1, 2, 3] }
    ioAll 1).1

/-- Example state for the Janitor: session `u2` (UPLOADING, created at
time 0, both chunk records RECEIVED) and session `c1` (COMPLETED,
created at time 0), each with a target file on disk. -/
def exC5St : ServerState :=
  { uploads := [{ id := "u2", filename := "b.zip", total_size := 10,
                  total_chunks := 2, status := .uploading, final_hash := none,
                  created_at := 0, updated_at := 0 },
                { id := "c1", filename := "c.zip", total_size := 10,
                  total_chunks := 2, status := .completed,
                  final_hash := some "h", created_at := 0, updated_at := 0 }],
    chunks := [{ upload_id := "u2", chunk_index := 0, status := .received,
                 received_at := some 1 },
               { upload_id := "u2", chunk_index := 1, status := .received,
                 received_at := some 2 }],
    files := [("u2", [1]), ("c1", [2])], temps := [] }

/-- Example state: a one-chunk session whose single chunk is RECEIVED. -/
def exW6St : ServerState :=
  { uploads := [{ id := "u", filename := "f", total_size := 10,
                  total_chunks := 1, status := .uploading, final_hash := none,
                  created_at := 0, updated_at := 0 }],
    chunks := [{ upload_id := "u", chunk_index := 0, status := .received,
                 received_at := some 1 }],
    files := [], temps := [] }

/-- Example chunk request carrying payload `[7]` for index 0. -/
def exW7Req : ChunkReq :=
  { uploadId := some "u", chunkIndex := some 0, totalChunks := some "2",
    payload := [7] }

/-- Example state: a session with no chunk records at all (as created by
an `init` whose `fileSize` was negative). -/
def exW10St : ServerState :=
  { uploads := [{ id := "u", filename := "f", total_size := -5,
                  total_chunks := 0, status := .uploading, final_hash := none,
                  created_at := 0, updated_at := 0 }],
    chunks := [], files := [], temps := [] }

theorem lookupFile_setFile_same (fs : List (String × List Nat))
    (name : String) (v : List Nat) :
    lookupFile (setFile fs name v) name = some v := by
  induction fs with
  | nil => simp [setFile, lookupFile, List.find?]
  | cons p rest ih =>
      obtain ⟨n, w⟩ := p
      by_cases h : n = name
      · subst h
        simp [setFile, lookupFile, List.find?]
      · simpa [setFile, h, lookupFile, List.find?] using ih

theorem updateChunkFirst_eq_of_none (cs : List ChunkDoc) (uid : String)
    (idx now : Int)
    (h : cs.find? (fun c => c.upload_id == uid && c.chunk_index == idx) = none) :
    updateChunkFirst cs uid idx now = cs := by
  induction cs with
  | nil => rfl
  | cons c rest ih =>
      by_cases hc : (c.upload_id == uid && c.chunk_index == idx) = true
      · simp [List.find?, hc] at h
      · rw [List.find?] at h
        simp only [hc] at h
        simp [updateChunkFirst, hc, ih h]

theorem finalizeUpload_chunks (st : ServerState) (uid : String)
    (io : IOFlags) (now : Int) :
    (finalizeUpload st uid io now).chunks = st.chunks := by
  unfold finalizeUpload
  split
  · rfl
  · split
    · rfl
    · dsimp only
      split <;> rfl

theorem finalizeUpload_files (st : ServerState) (uid : String)
    (io : IOFlags) (now : Int) :
    (finalizeUpload st uid io now).files = st.files := by
  unfold finalizeUpload
  split
  · rfl
  · split
    · rfl
    · dsimp only
      split <;> rfl

theorem wpm_nil : writePrecedesMark [] := by
  intro n h
  simp at h

theorem wpm_pair : writePrecedesMark [Ev.fileWrite, Ev.setReceived] := by
  intro n h
  match n with
  | 0 => simp at h
  | 1 => exact ⟨0, by omega, rfl⟩
  | n + 2 => simp [List.get?] at h

/-- C1: the claim says the UPLOADING-to-PROCESSING transition is a
compare-and-set so that at most one concurrent finalizer writes
`final_hash` and the session is set to COMPLETED exactly once.  In the
code the transition is a `findOne` status check followed by an
`updateOne` whose filter is `{id}` alone (server.js 184-193), so two
workers interleaved as guard, guard, then each worker's two writes,
both pass the guard: `final_hash` is written twice and the
COMPLETED status write happens twice. -/
theorem finalize_double_write_race :
    (raceRun (raceStart 2) [0, 1, 0, 0, 1, 1]).finalHashWrites = 2
    ∧ (raceRun (raceStart 2) [0, 1, 0, 0, 1, 1]).completedWrites = 2 := by
  constructor <;> rfl

/-- C2: the claim says a payload whose length differs from the expected
chunk size is rejected, the file is untouched and the record stays
PENDING.  The code has no length check at all (server.js 127-148): on a
two-chunk session (expected size of chunk 0 is `CHUNK_SIZE`), a 1-byte
payload `[7]` is accepted with a success response, written into the
target file, and the chunk record is set to RECEIVED. -/
theorem wrong_length_chunk_accepted :
    ([7] : List Nat).length ≠ CHUNK_SIZE.toNat
    ∧ (receiveChunk exC2St
        { uploadId := some "u", chunkIndex := some 0, totalChunks := some "2",
          payload := [7] } ioAll 5).2.1 = ChunkResp.ok false 1 2
    ∧ lookupFile (receiveChunk exC2St
        { uploadId := some "u", chunkIndex := some 0, totalChunks := some "2",
          payload := [7] } ioAll 5).1.files "u" = some [7]
    ∧ (receiveChunk exC2St
        { uploadId := some "u", chunkIndex := some 0, totalChunks := some "2",
          payload := [7] } ioAll 5).1.chunks.find?
        (fun c => c.upload_id == "u" && c.chunk_index == 0)
      = some { upload_id := "u", chunk_index := 0, status := .received,
               received_at := some 5 } := by
  refine ⟨by decide, by decide, by decide, by decide⟩

/-- C3: the claim says a chunk call on a session whose status is not
UPLOADING succeeds as an "already finalized" no-op with the payload
discarded and nothing mutated.  The code never consults the session's
status on the chunk path (server.js 110-148): in the reachable state
`exC3St` (session "u" COMPLETED with `final_hash` set, target file
`[1, 2, 3]`), a further chunk call writes its payload into the target
file, changing it to `[9, 2, 3]`, and answers plain success rather than
an already-finalized indication. -/
theorem finalized_session_still_mutated :
    (exC3St.uploads.find? (fun u => u.id == "u")).map (fun u => u.status)
      = some UStatus.completed
    ∧ lookupFile exC3St.files "u" = some [1, 2, 3]
    ∧ lookupFile (receiveChunk exC3St
        { uploadId := some "u", chunkIndex := some 0, totalChunks := some "1",
          payload := [9] } ioAll 2).1.files "u" = some [9, 2, 3]
    ∧ (receiveChunk exC3St
        { uploadId := some "u", chunkIndex := some 0, totalChunks := some "1",
          payload := [9] } ioAll 2).2.1 = ChunkResp.ok true 0 0 := by
  refine ⟨by decide, by decide, by decide, by decide⟩

/-- C4: the claim says an `init` whose `fileSize` is ≤ 0 is rejected
with a validation error and no records are created.  The guard
`!filename || !fileSize || !uploadId` (server.js 34) only catches the
falsy number 0: `fileSize = -5` passes it, and a session record is
created (with `Math.ceil(-5 / CHUNK_SIZE) = 0` chunk records). -/
theorem negative_fileSize_not_rejected :
    (-5 : Int) ≤ 0
    ∧ (initUpload { uploads := [], chunks := [], files := [], temps := [] }
        { filename := some "a.zip", fileSize := some (-5), uploadId := some "u" }
        0).2 = InitResp.ok "u" [] UStatus.uploading
    ∧ ((initUpload { uploads := [], chunks := [], files := [], temps := [] }
        { filename := some "a.zip", fileSize := some (-5), uploadId := some "u" }
        0).1.uploads.map (fun u => u.id)) = ["u"] := by
  refine ⟨by decide, by decide, by decide⟩

/-- C5: the claim says the Janitor deletes the expired session's target
file, session record and chunk records, and leaves COMPLETED sessions
alone.  The code (server.js 285-320) deletes the files and the session
records but never touches the `chunks` collection: after a sweep at
time 360000000 ms (100 h), the 100 h old UPLOADING session "u2" and its
file are gone and the COMPLETED session "c1" is untouched, yet both of
"u2"'s chunk records are still present. -/
theorem janitor_keeps_chunk_records :
    (cleanupOldUploads exC5St 360000000).uploads.map (fun u => u.id) = ["c1"]
    ∧ lookupFile (cleanupOldUploads exC5St 360000000).files "u2" = none
    ∧ lookupFile (cleanupOldUploads exC5St 360000000).files "c1" = some [2]
    ∧ (cleanupOldUploads exC5St 360000000).chunks = exC5St.chunks
    ∧ exC5St.chunks.length = 2 := by
  refine ⟨by decide, by decide, by decide, by decide, by decide⟩

/-- C6: `init` is idempotent: when a session with the requested id
already exists (and the request passes the field guard), the call
returns the same session id together with the existing session's current
status and the list of exactly those chunk indices whose chunk record
is RECEIVED, and the state — sessions, chunk records, files — is
entirely unchanged. -/
theorem init_idempotent_on_existing
    (st : ServerState) (fn uid : String) (sz now : Int) (u : UploadDoc)
    (hfn : fn ≠ "") (hsz : sz ≠ 0) (huid : uid ≠ "")
    (hfind : st.uploads.find? (fun v => v.id == uid) = some u) :
    initUpload st { filename := some fn, fileSize := some sz,
                    uploadId := some uid } now
      = (st, .ok uid
          (((st.chunks.filter (fun c => c.upload_id == uid)).filter
              (fun c => c.status == CStatus.received)).map
            (fun c => c.chunk_index))
          u.status)
    ∧ ∀ i : Int,
        i ∈ ((st.chunks.filter (fun c => c.upload_id == uid)).filter
              (fun c => c.status == CStatus.received)).map
            (fun c => c.chunk_index)
        ↔ ∃ c ∈ st.chunks,
            c.upload_id = uid ∧ c.status = CStatus.received ∧ c.chunk_index = i := by
  constructor
  · unfold initUpload
    simp only [hfn, hsz, huid, hfind]
    simp
  · intro i
    simp only [List.mem_map, List.mem_filter, beq_iff_eq]
    constructor
    · rintro ⟨c, ⟨⟨hc, hcu⟩, hcr⟩, rfl⟩
      exact ⟨c, hc, hcu, hcr, rfl⟩
    · rintro ⟨c, hc, hcu, hcr, rfl⟩
      exact ⟨c, ⟨⟨hc, hcu⟩, hcr⟩, rfl⟩

/-- Witness for C6 at a concrete one-chunk session whose chunk 0 is
RECEIVED. -/
theorem init_idempotent_on_existing_witness :
    initUpload exW6St { filename := some "f", fileSize := some 10,
                        uploadId := some "u" } 5
      = (exW6St, .ok "u"
          (((exW6St.chunks.filter (fun c => c.upload_id == "u")).filter
              (fun c => c.status == CStatus.received)).map
            (fun c => c.chunk_index))
          UStatus.uploading)
    ∧ ∀ i : Int,
        i ∈ ((exW6St.chunks.filter (fun c => c.upload_id == "u")).filter
              (fun c => c.status == CStatus.received)).map
            (fun c => c.chunk_index)
        ↔ ∃ c ∈ exW6St.chunks,
            c.upload_id = "u" ∧ c.status = CStatus.received ∧ c.chunk_index = i :=
  init_idempotent_on_existing exW6St "f" "u" 10 5
    { id := "u", filename := "f", total_size := 10, total_chunks := 1,
      status := .uploading, final_hash := none, created_at := 0, updated_at := 0 }
    (by decide) (by decide) (by decide) (by decide)

/-- C7: within one chunk call the positional file write strictly
precedes the `set_chunk_received` store update — in the emitted event
list every `setReceived` is preceded by an earlier `fileWrite` — and
when the file write fails the chunk records are left untouched (so a
PENDING record stays PENDING) and no `setReceived` is emitted at all. -/
theorem write_precedes_set_received
    (st : ServerState) (req : ChunkReq) (io : IOFlags) (now : Int) :
    writePrecedesMark (receiveChunk st req io now).2.2
    ∧ (io.writeOk = false →
        (receiveChunk st req io now).1.chunks = st.chunks
        ∧ Ev.setReceived ∉ (receiveChunk st req io now).2.2) := by
  unfold receiveChunk
  obtain ⟨uidO, idxO, tcO, payload⟩ := req
  match uidO, idxO, tcO with
  | none, _, _ => exact ⟨wpm_nil, fun _ => ⟨rfl, by simp⟩⟩
  | some uid, none, _ => exact ⟨wpm_nil, fun _ => ⟨rfl, by simp⟩⟩
  | some uid, some idx, none => exact ⟨wpm_nil, fun _ => ⟨rfl, by simp⟩⟩
  | some uid, some idx, some tc =>
      dsimp only
      split
      · exact ⟨wpm_nil, fun _ => ⟨rfl, by simp⟩⟩
      · unfold receiveChunkCore
        split
        · exact ⟨wpm_nil, fun _ => ⟨rfl, by simp⟩⟩
        · dsimp only
          split
          · exact ⟨wpm_nil, fun _ => ⟨rfl, by simp⟩⟩
          · split
            · next hcond =>
                refine ⟨wpm_pair, fun hw => absurd hcond ?_⟩
                simp [hw]
            · exact ⟨wpm_nil, fun _ => ⟨rfl, by simp⟩⟩

/-- Witness for C7: with the positional write failing, a chunk call on
the fresh two-chunk session leaves the chunk records untouched and emits
no `setReceived` event. -/
theorem write_precedes_set_received_witness :
    (receiveChunk exC2St exW7Req { writeOk := false, hashOk := true } 3).1.chunks
      = exC2St.chunks
    ∧ Ev.setReceived ∉
        (receiveChunk exC2St exW7Req { writeOk := false, hashOk := true } 3).2.2 :=
  (write_precedes_set_received exC2St exW7Req
    { writeOk := false, hashOk := true } 3).2 rfl

/-- C8: a successful `init` of a fresh id with declared size `n > 0`
stores `total_chunks = ceil(n / CHUNK_SIZE)` — the unique integer `k`
with `CHUNK_SIZE * (k - 1) < n ≤ CHUNK_SIZE * k` — and creates exactly
that many chunk records, PENDING, with indices `0 .. k-1`, alongside
the session. -/
theorem total_chunks_is_ceil
    (st : ServerState) (fn uid : String) (n now : Int)
    (hfn : fn ≠ "") (huid : uid ≠ "") (hn : 0 < n)
    (hfind : st.uploads.find? (fun v => v.id == uid) = none)
    (hnochunks : st.chunks.filter (fun c => c.upload_id == uid) = []) :
    (initUpload st { filename := some fn, fileSize := some n,
                     uploadId := some uid } now).1.uploads
      = st.uploads ++
        [{ id := uid, filename := fn, total_size := n,
           total_chunks := ceilDiv n CHUNK_SIZE, status := .uploading,
           final_hash := none, created_at := now, updated_at := now }]
    ∧ CHUNK_SIZE * (ceilDiv n CHUNK_SIZE - 1) < n
    ∧ n ≤ CHUNK_SIZE * ceilDiv n CHUNK_SIZE
    ∧ (initUpload st { filename := some fn, fileSize := some n,
                       uploadId := some uid } now).1.chunks.filter
        (fun c => c.upload_id == uid)
      = (List.range (ceilDiv n CHUNK_SIZE).toNat).map
          (fun i => ({ upload_id := uid, chunk_index := Int.ofNat i,
                       status := .pending, received_at := none } : ChunkDoc)) := by
  have hsz : n ≠ 0 := by omega
  have key : initUpload st { filename := some fn, fileSize := some n,
                             uploadId := some uid } now
      = ({ uploads := st.uploads ++
             [{ id := uid, filename := fn, total_size := n,
                total_chunks := ceilDiv n CHUNK_SIZE, status := .uploading,
                final_hash := none, created_at := now, updated_at := now }],
           chunks := st.chunks ++ (List.range (ceilDiv n CHUNK_SIZE).toNat).map
             (fun i => ({ upload_id := uid, chunk_index := Int.ofNat i,
                          status := .pending, received_at := none } : ChunkDoc)),
           files := st.files, temps := st.temps },
         .ok uid [] .uploading) := by
    unfold initUpload
    simp only [hfn, hsz, huid, hfind]
    simp
  refine ⟨?_, ?_, ?_, ?_⟩
  · rw [key]
  · simp only [ceilDiv, CHUNK_SIZE]
    omega
  · simp only [ceilDiv, CHUNK_SIZE]
    omega
  · rw [key]
    dsimp only
    rw [List.filter_append, hnochunks, List.nil_append]
    apply List.filter_eq_self.mpr
    intro a ha
    simp only [List.mem_map, List.mem_range] at ha
    obtain ⟨i, _, rfl⟩ := ha
    simp

/-- Witness for C8: a fresh 6-byte upload on the empty state gets
`ceil(6 / CHUNK_SIZE) = 1` chunk record. -/
theorem total_chunks_is_ceil_witness :
    (initUpload { uploads := [], chunks := [], files := [], temps := [] }
       { filename := some "f", fileSize := some 6, uploadId := some "u" }
       0).1.uploads
      = [] ++
        [{ id := "u", filename := "f", total_size := 6,
           total_chunks := ceilDiv 6 CHUNK_SIZE, status := .uploading,
           final_hash := none, created_at := 0, updated_at := 0 }]
    ∧ CHUNK_SIZE * (ceilDiv 6 CHUNK_SIZE - 1) < 6
    ∧ (6 : Int) ≤ CHUNK_SIZE * ceilDiv 6 CHUNK_SIZE
    ∧ (initUpload { uploads := [], chunks := [], files := [], temps := [] }
         { filename := some "f", fileSize := some 6, uploadId := some "u" }
         0).1.chunks.filter (fun c => c.upload_id == "u")
      = (List.range (ceilDiv 6 CHUNK_SIZE).toNat).map
          (fun i => ({ upload_id := "u", chunk_index := Int.ofNat i,
                       status := .pending, received_at := none } : ChunkDoc)) :=
  total_chunks_is_ceil { uploads := [], chunks := [], files := [], temps := [] }
    "f" "u" 6 0 (by decide) (by decide) (by decide) rfl rfl

/-- C9: the multipart `totalChunks` value influences nothing beyond the
presence guard: two chunk calls from the same state that differ only in
a (non-empty) `totalChunks` form value produce identical states,
identical responses and identical event lists — the response counts and
the finalization decision are computed from the stored chunk records
alone. -/
theorem totalChunks_field_noninterference
    (st : ServerState) (io : IOFlags) (now : Int) (uidO : Option String)
    (idxO : Option Int) (payload : List Nat) (t1 t2 : String)
    (h1 : t1 ≠ "") (h2 : t2 ≠ "") :
    receiveChunk st { uploadId := uidO, chunkIndex := idxO,
                      totalChunks := some t1, payload := payload } io now
      = receiveChunk st { uploadId := uidO, chunkIndex := idxO,
                          totalChunks := some t2, payload := payload } io now := by
  cases uidO with
  | none => rfl
  | some uid =>
      cases idxO with
      | none => rfl
      | some idx =>
          unfold receiveChunk
          simp [h1, h2]

/-- Witness for C9 at concrete `totalChunks` form values "2" and "999". -/
theorem totalChunks_field_noninterference_witness :
    receiveChunk exC2St { uploadId := some "u", chunkIndex := some 0,
                          totalChunks := some "2", payload := [7] } ioAll 5
      = receiveChunk exC2St { uploadId := some "u", chunkIndex := some 0,
                              totalChunks := some "999", payload := [7] } ioAll 5 :=
  totalChunks_field_noninterference exC2St ioAll 5 (some "u") (some 0) [7]
    "2" "999" (by decide) (by decide)

/-- C10: a chunk call on an existing session with an index that has no
chunk record (e.g. an index at or beyond `total_chunks`) still writes
the payload into the target file at offset `chunk_index * CHUNK_SIZE`
and answers success, while the record update matches nothing: the chunk
records — and hence the RECEIVED count — are unchanged. -/
theorem recordless_chunk_write
    (st : ServerState) (uid tc : String) (idx now : Int)
    (payload : List Nat) (io : IOFlags) (u : UploadDoc)
    (huid : uid ≠ "") (htc : tc ≠ "")
    (hfind : st.uploads.find? (fun v => v.id == uid) = some u)
    (hno : st.chunks.find?
      (fun c => c.upload_id == uid && c.chunk_index == idx) = none)
    (hw : io.writeOk = true) (hidx : 0 ≤ idx) :
    (receiveChunk st { uploadId := some uid, chunkIndex := some idx,
                       totalChunks := some tc, payload := payload } io now).1.chunks
      = st.chunks
    ∧ lookupFile (receiveChunk st { uploadId := some uid, chunkIndex := some idx,
                                    totalChunks := some tc, payload := payload }
        io now).1.files uid
      = some (writeAt ((lookupFile st.files uid).getD [])
          (idx * CHUNK_SIZE).toNat payload)
    ∧ (∃ b r t, (receiveChunk st { uploadId := some uid, chunkIndex := some idx,
                                   totalChunks := some tc, payload := payload }
          io now).2.1 = ChunkResp.ok b r t)
    ∧ countReceived (receiveChunk st { uploadId := some uid,
                                       chunkIndex := some idx,
                                       totalChunks := some tc,
                                       payload := payload } io now).1.chunks uid
      = countReceived st.chunks uid := by
  have hoffset : (0 : Int) ≤ idx * CHUNK_SIZE := by
    have : (0 : Int) ≤ CHUNK_SIZE := by norm_num [CHUNK_SIZE]
    exact mul_nonneg hidx this
  have hguard : ¬(uid = "" ∨ tc = "") := by simp [huid, htc]
  unfold receiveChunk
  dsimp only
  rw [if_neg hguard]
  unfold receiveChunkCore
  rw [hfind]
  dsimp only
  rw [hno]
  dsimp only
  rw [if_neg Bool.false_ne_true]
  have hcond : (io.writeOk && decide (0 ≤ idx * CHUNK_SIZE)) = true := by
    rw [hw, decide_eq_true hoffset]
    rfl
  rw [if_pos hcond]
  rw [updateChunkFirst_eq_of_none st.chunks uid idx now hno]
  split
  · refine ⟨?_, ?_, ⟨_, _, _, rfl⟩, ?_⟩
    · rw [finalizeUpload_chunks]
    · rw [finalizeUpload_files]
      exact lookupFile_setFile_same st.files uid _
    · rw [finalizeUpload_chunks]
  · exact ⟨rfl, lookupFile_setFile_same st.files uid _, ⟨_, _, _, rfl⟩, rfl⟩

/-- Witness for C10: on a session with no chunk records, a chunk call
for index 0 writes the payload, answers success and leaves the (empty)
record set and RECEIVED count unchanged. -/
theorem recordless_chunk_write_witness :
    (receiveChunk exW10St { uploadId := some "u", chunkIndex := some 0,
                            totalChunks := some "1", payload := [7] }
        ioAll 3).1.chunks = exW10St.chunks
    ∧ lookupFile (receiveChunk exW10St
        { uploadId := some "u", chunkIndex := some 0,
          totalChunks := some "1", payload := [7] } ioAll 3).1.files "u"
      = some (writeAt ((lookupFile exW10St.files "u").getD [])
          ((0 : Int) * CHUNK_SIZE).toNat [7])
    ∧ (∃ b r t, (receiveChunk exW10St
        { uploadId := some "u", chunkIndex := some 0,
          totalChunks := some "1", payload := [7] } ioAll 3).2.1
        = ChunkResp.ok b r t)
    ∧ countReceived (receiveChunk exW10St
        { uploadId := some "u", chunkIndex := some 0,
          totalChunks := some "1", payload := [7] } ioAll 3).1.chunks "u"
      = countReceived exW10St.chunks "u" :=
  recordless_chunk_write exW10St "u" "1" 0 3 [7] ioAll
    { id := "u", filename := "f", total_size := -5, total_chunks := 0,
      status := .uploading, final_hash := none, created_at := 0, updated_at := 0 }
    (by decide) (by decide) rfl rfl rfl (by decide)
